import Mathlib

/-!
Verification of the loan-lifecycle and inventory-consistency core of the
perpustakaanSMA library system.

The embedding models, faithfully to the source:
* the `books` and `borrowings` tables of `supabase/migrations/001_complete_setup.sql`,
  including the column constraints `CHECK (available_copies >= 0)` and
  `CHECK (total_copies >= available_copies)` and the foreign keys;
* the database helpers and triggers of
  `supabase/migrations/008_enhance_borrowings_for_proper_borrowing.sql`
  (`is_book_available`, `update_books_available_on_borrow`), which are the
  operative versions after all migrations run in order (008 drops and
  recreates the 001 versions);
* the operations of `src/stores/borrowingStore.ts`: `borrowBook`,
  `requestReturn`, `approveReturn`, `returnBook`, `calculateFine`,
  `updateOverdueBorrowings`.

Conventions: timestamps are naturals (milliseconds); `date-fns`'s
`differenceInDays` counts whole 24-hour periods, i.e. floor division of the
millisecond difference; fines are rationals (binary floating point is exact
on the multiples of 0.5 that arise). Operations are sequential: each embedded
function is one client call running to completion, with individual SQL
statements (including their triggers) atomic. Storage failures of individual
statements are injected through a `FailOracle`. Row-level-security filtering
is not modelled; reads see the whole table (the store-level logic is the
subject of the claims).

In every modelled operation each code path that throws does so before the
first mutating statement succeeds (mutation failures after that point are
only logged by the source), so representing an operation as
`Except OpError LibState` and reading an error as "state unchanged"
(`postOf` below) is faithful.
-/

namespace PerpusSMA

/-- Values of the `borrowings.status` column
    (`CHECK (status IN ('active', 'returned', 'overdue', 'pending_return'))`). -/
inductive BStatus
  | active
  | returned
  | overdue
  | pending_return
  deriving DecidableEq, Repr

/-- A row of the `books` table, restricted to the columns the core reads:
    `total_copies` and `available_copies` (both SQL `integer`). -/
structure Book where
  total_copies : Int
  available_copies : Int
  deriving DecidableEq, Repr

/-- A row of the `borrowings` table. `fine_amount` is `decimal(10,2)`,
    modelled as a rational. -/
structure Borrowing where
  id : Nat
  user_id : Nat
  book_id : Nat
  borrow_date : Nat
  due_date : Nat
  return_date : Option Nat
  status : BStatus
  fine_amount : ℚ
  deriving DecidableEq, Repr

/-- Caller roles from the `profiles.role` column; `admin` and `librarian`
    are the staff roles. -/
inductive Role
  | admin
  | librarian
  | member
  deriving DecidableEq, Repr

/-- The caller identity the auth store supplies (`profile.id`, `profile.role`). -/
structure Profile where
  id : Nat
  role : Role
  deriving DecidableEq, Repr

/-- Database state: the `books` table (keyed by id), the `borrowings` table,
    and the id the next inserted borrowing receives. -/
structure LibState where
  books : List (Nat × Book)
  borrowings : List Borrowing
  nextId : Nat
  deriving DecidableEq, Repr

/-- Milliseconds per day, the unit of `date-fns`'s `addDays` and
    `differenceInDays`. -/
def dayMs : Nat := 86400000

/-- `SELECT ... FROM books WHERE id = bid`. -/
def findBook (s : LibState) (bid : Nat) : Option Book :=
  (s.books.find? (fun p => p.1 == bid)).map Prod.snd

/-- `UPDATE books SET available_copies = v WHERE id = bid`. The statement
    fails when the new row violates `CHECK (available_copies >= 0)` or
    `CHECK (total_copies >= available_copies)`; a statement matching no row
    succeeds without effect. -/
def updateBookAvailable (s : LibState) (bid : Nat) (v : Int) : Option LibState :=
  match findBook s bid with
  | none => some s
  | some bk =>
      if 0 ≤ v ∧ v ≤ bk.total_copies then
        some { s with books := s.books.map (fun p =>
          if p.1 = bid then (p.1, { p.2 with available_copies := v }) else p) }
      else none

/-- `UPDATE books SET available_copies = available_copies + d WHERE id = bid`,
    the form used by the triggers: read-and-write in one atomic statement. -/
def bumpBookAvailable (s : LibState) (bid : Nat) (d : Int) : Option LibState :=
  match findBook s bid with
  | none => some s
  | some bk => updateBookAvailable s bid (bk.available_copies + d)

/-- `is_book_available(p_book_id)` from migration 008: the book's
    `available_copies` compared against the count of borrowings for it with
    status `'active'`. A missing book yields SQL NULL, which the store
    treats as unavailable; modelled as `false`. -/
def is_book_available (s : LibState) (bid : Nat) : Bool :=
  match findBook s bid with
  | none => false
  | some bk =>
      decide (((s.borrowings.countP
        (fun b => b.book_id == bid && b.status == BStatus.active)) : Int)
          < bk.available_copies)

/-- The `update_books_available_on_borrow` trigger of migration 008, UPDATE
    branch, fired after a status change `oldSt -> newSt` of a borrowing for
    book `bid`. -/
def statusChangeTrigger (s : LibState) (bid : Nat) (oldSt newSt : BStatus) :
    Option LibState :=
  if (oldSt = .active ∨ oldSt = .pending_return) ∧ newSt = .returned then
    bumpBookAvailable s bid 1
  else if oldSt = .returned ∧ newSt = .active then
    bumpBookAvailable s bid (-1)
  else if oldSt = .overdue ∧ newSt = .returned then
    bumpBookAvailable s bid 1
  else
    some s

/-- `INSERT INTO borrowings ...` together with its AFTER INSERT trigger
    (migration 008): inserting a row with status `'active'` decrements the
    book's `available_copies` inside the same statement. A missing book is a
    foreign-key violation (`book_id REFERENCES books(id)`); a trigger
    failure fails, and rolls back, the whole insert. -/
def insertBorrowing (s : LibState) (row : Borrowing) : Option LibState :=
  match findBook s row.book_id with
  | none => none
  | some _ =>
      if row.status = BStatus.active then
        bumpBookAvailable
          { s with borrowings := s.borrowings ++ [row], nextId := s.nextId + 1 }
          row.book_id (-1)
      else
        some { s with borrowings := s.borrowings ++ [row], nextId := s.nextId + 1 }

/-- `UPDATE borrowings SET ... WHERE id = i`, together with the
    AFTER UPDATE OF status triggers fired once per affected row; a trigger
    failure fails (and rolls back) the whole statement. -/
def updateBorrowings (s : LibState) (i : Nat) (f : Borrowing → Borrowing) :
    Option LibState :=
  let s1 : LibState :=
    { s with borrowings := s.borrowings.map (fun b => if b.id = i then f b else b) }
  (s.borrowings.filter (fun b => b.id == i)).foldlM
    (fun acc b => statusChangeTrigger acc b.book_id b.status (f b).status) s1

/-- Typed outcomes of the store operations. The source throws `Error`s with
    messages; each constructor stands for one of them. -/
inductive OpError
  | storage
  | itemUnavailable
  | notFound
  | invalidState
  | notOwner
  | forbidden
  deriving DecidableEq, Repr

/-- Injection points for storage failures: each field tells whether the
    corresponding storage call of an operation fails. -/
structure FailOracle where
  borrowRpcFail : Bool
  borrowInsertFail : Bool
  borrowFetchFail : Bool
  borrowUpdateFail : Bool
  requestReadFail : Bool
  requestUpdateFail : Bool
  approveReadFail : Bool
  approveUpdateBorrowingFail : Bool
  approveBookUpdateFail : Bool
  overdueSelectFail : Bool
  overdueUpdateFail : Nat → Bool

/-- The oracle under which no storage call fails. -/
def noFail : FailOracle :=
  { borrowRpcFail := false
    borrowInsertFail := false
    borrowFetchFail := false
    borrowUpdateFail := false
    requestReadFail := false
    requestUpdateFail := false
    approveReadFail := false
    approveUpdateBorrowingFail := false
    approveBookUpdateFail := false
    overdueSelectFail := false
    overdueUpdateFail := fun _ => false }

/-- The state an operation's caller observes afterwards: every modelled
    operation throws, if at all, before its first successful mutation, so an
    error leaves the pre-state. -/
def postOf (s : LibState) (r : Except OpError LibState) : LibState :=
  match r with
  | .ok s' => s'
  | .error _ => s

/-- The error of a result, if any. -/
def errOf (r : Except OpError LibState) : Option OpError :=
  match r with
  | .ok _ => none
  | .error e => some e

/-- Whether a result is a success. -/
def okOf (r : Except OpError LibState) : Bool :=
  match r with
  | .ok _ => true
  | .error _ => false

/-- The `available_copies` of book `bid` in state `s`. -/
def availOf (s : LibState) (bid : Nat) : Option Int :=
  (findBook s bid).map Book.available_copies

/-- `calculateFine(dueDate)` from the store, with the implicit `new Date()`
    passed explicitly: $0.50 per full overdue day, 0 when `now` is not after
    the due date. `differenceInDays` counts whole days (floor of the
    millisecond difference). -/
def calculateFine (dueDate now : Nat) : ℚ :=
  if dueDate < now then (((now - dueDate) / dayMs : Nat) : ℚ) * (1 / 2) else 0

/-- `borrowBook(bookId, userId, daysToReturn)` from the store. Steps mirror
    the source: (1) RPC `is_book_available`, a falsy result throws
    "Book is not available for borrowing"; (2) an informational SELECT of
    the book follows in the source but only logs, so it has no effect here;
    (3) INSERT of the borrowing with status `'active'`, whose trigger
    decrements `available_copies` within the statement; (4) a second SELECT
    and conditional UPDATE decrementing `available_copies` again, whose
    errors the source only logs (`console.error`) without failing the call. -/
def borrowBook (fo : FailOracle) (s : LibState) (bookId userId : Nat)
    (daysToReturn : Nat) (now : Nat) : Except OpError LibState :=
  if fo.borrowRpcFail then .error .storage
  else if is_book_available s bookId then
    if fo.borrowInsertFail then .error .storage
    else
      match insertBorrowing s
        { id := s.nextId, user_id := userId, book_id := bookId
          borrow_date := now, due_date := now + daysToReturn * dayMs
          return_date := none, status := .active, fine_amount := 0 } with
      | none => .error .storage
      | some s1 =>
          if fo.borrowFetchFail then .ok s1
          else
            match findBook s1 bookId with
            | none => .ok s1
            | some bk =>
                if bk.available_copies > 0 then
                  if fo.borrowUpdateFail then .ok s1
                  else
                    match updateBookAvailable s1 bookId (bk.available_copies - 1) with
                    | none => .ok s1
                    | some s2 => .ok s2
                else .ok s1
  else .error .itemUnavailable

/-- `requestReturn(borrowingId)` from the store: read the borrowing, then in
    source order check existence, status `'active'`, ownership, and finally
    update the status to `'pending_return'`. -/
def requestReturn (fo : FailOracle) (s : LibState) (borrowingId : Nat)
    (caller : Profile) : Except OpError LibState :=
  if fo.requestReadFail then .error .storage
  else
    match s.borrowings.find? (fun b => b.id == borrowingId) with
    | none => .error .notFound
    | some b =>
        if b.status ≠ .active then .error .invalidState
        else if b.user_id ≠ caller.id then .error .notOwner
        else if fo.requestUpdateFail then .error .storage
        else
          match updateBorrowings s borrowingId
              (fun c => { c with status := .pending_return }) with
          | none => .error .storage
          | some s1 => .ok s1

/-- `approveReturn(borrowingId)` from the store: role gate
    (`admin`/`librarian` only), read the borrowing joined with its book,
    require status `'pending_return'` ("Only pending returns can be
    approved"), UPDATE the borrowing (return_date, status `'returned'`,
    fine) — whose trigger increments `available_copies` — then a client-side
    UPDATE writing `min(pre-read available + 1, total_copies)` (with the
    source's `total_copies || 999` falsy fallback), whose errors are only
    logged. The source takes `new Date()` twice within microseconds; both
    are the single `now` here. -/
def approveReturn (fo : FailOracle) (s : LibState) (borrowingId : Nat)
    (caller : Profile) (now : Nat) : Except OpError LibState :=
  if caller.role = .admin ∨ caller.role = .librarian then
    if fo.approveReadFail then .error .storage
    else
      match s.borrowings.find? (fun b => b.id == borrowingId) with
      | none => .error .notFound
      | some b =>
          match findBook s b.book_id with
          | none => .error .notFound
          | some bk =>
              if b.status ≠ .pending_return then .error .invalidState
              else
                if fo.approveUpdateBorrowingFail then .error .storage
                else
                  match updateBorrowings s borrowingId (fun c =>
                      { c with return_date := some now, status := .returned
                               fine_amount := calculateFine b.due_date now }) with
                  | none => .error .storage
                  | some s1 =>
                      if fo.approveBookUpdateFail then .ok s1
                      else
                        match updateBookAvailable s1 b.book_id
                          (min (bk.available_copies + 1)
                            (if bk.total_copies = 0 then 999
                             else bk.total_copies)) with
                        | none => .ok s1
                        | some s2 => .ok s2
  else .error .forbidden

/-- `returnBook(borrowingId)` from the store: "Backward compatibility - for
    admin direct returns (treat as approve)" — it delegates to
    `approveReturn` unchanged. -/
def returnBook (fo : FailOracle) (s : LibState) (borrowingId : Nat)
    (caller : Profile) (now : Nat) : Except OpError LibState :=
  approveReturn fo s borrowingId caller now

/-- The row transform `updateOverdueBorrowings` applies to a selected
    borrowing: status `'overdue'` and the recomputed fine. -/
def overdueXform (fine : ℚ) (c : Borrowing) : Borrowing :=
  { c with status := .overdue, fine_amount := fine }

/-- `updateOverdueBorrowings()` from the store: select the borrowings with
    status `'active'` and `due_date` before now, then update each in a loop.
    The result of each awaited update is not inspected, so a failing update
    leaves the table unchanged and the loop continues; the only thrown error
    is the select's, and the surrounding catch only logs it, so the call
    always returns normally. -/
def updateOverdueBorrowings (fo : FailOracle) (s : LibState) (now : Nat) :
    Except OpError LibState :=
  if fo.overdueSelectFail then .ok s
  else
    .ok (((s.borrowings.filter
        (fun b => b.status == BStatus.active && decide (b.due_date < now))).map
          (fun b => (b.id, calculateFine b.due_date now))).foldl
      (fun acc pr =>
        if fo.overdueUpdateFail pr.1 then acc
        else
          match updateBorrowings acc pr.1 (fun c => overdueXform pr.2 c) with
          | some s2 => s2
          | none => acc) s)

/-! ## Example states used by concrete theorems -/

/-- A book (id 0) with two copies, both on the shelf, and no borrowings. -/
def stTwoFree : LibState :=
  { books := [(0, { total_copies := 2, available_copies := 2 })],
    borrowings := [], nextId := 0 }

/-- A book (id 0) with one copy, none on the shelf, and no borrowings. -/
def stNoFree : LibState :=
  { books := [(0, { total_copies := 1, available_copies := 0 })],
    borrowings := [], nextId := 0 }

/-- An outstanding borrowing of book 0 by user 7, not yet due. -/
def rowActive : Borrowing :=
  { id := 0, user_id := 7, book_id := 0, borrow_date := 0,
    due_date := 99999999999, return_date := none, status := .active,
    fine_amount := 0 }

/-- A state whose only borrowing is active. -/
def stActiveLoan : LibState :=
  { books := [(0, { total_copies := 3, available_copies := 2 })],
    borrowings := [rowActive], nextId := 1 }

/-- A state whose only borrowing is overdue. -/
def stOverdueLoan : LibState :=
  { books := [(0, { total_copies := 3, available_copies := 2 })],
    borrowings := [{ rowActive with status := .overdue }], nextId := 1 }

/-- A state whose only borrowing awaits return approval. -/
def stPendingLoan : LibState :=
  { books := [(0, { total_copies := 1, available_copies := 0 })],
    borrowings := [{ rowActive with status := .pending_return }], nextId := 1 }

/-- A state with one active borrowing whose due date lies exactly three days
    before the reference time `nowThreeDays`. -/
def stDueThreeDays : LibState :=
  { books := [(0, { total_copies := 1, available_copies := 0 })],
    borrowings := [{ rowActive with due_date := 5 }], nextId := 1 }

/-- Reference time for `stDueThreeDays`: exactly three days after due date 5. -/
def nowThreeDays : Nat := 3 * dayMs + 5

/-- An oracle whose per-row overdue update fails for borrowing id 5 only. -/
def failFive : FailOracle := { noFail with overdueUpdateFail := fun i => i == 5 }

/-- The member who borrows in the examples. -/
def memberSeven : Profile := { id := 7, role := .member }

/-- The staff approver in the examples. -/
def adminOne : Profile := { id := 1, role := .admin }

/-- States along the borrow/return round trip from `stTwoFree`. -/
def stAfterBorrow : LibState :=
  postOf stTwoFree (borrowBook noFail stTwoFree 0 7 14 1000)

/-- Round-trip state after the member requests the return. -/
def stAfterRequest : LibState :=
  postOf stAfterBorrow (requestReturn noFail stAfterBorrow 0 memberSeven)

/-- Round-trip state after staff approves the return. -/
def stAfterApprove : LibState :=
  postOf stAfterRequest (approveReturn noFail stAfterRequest 0 adminOne 2000)

/-! ## The spec's fine formula, for comparison with `calculateFine` -/

/-- Modelled from the spec: `daysBetween` counts whole day periods between
    two times, negative when the second is earlier (the rounding of
    date-fns `differenceInDays`: toward zero). -/
def daysBetween (t1 t2 : Nat) : Int :=
  if t1 ≤ t2 then (((t2 - t1) / dayMs : Nat) : Int)
  else -(((t1 - t2) / dayMs : Nat) : Int)

/-- Modelled from the spec:
    `fineAmount = max(0, daysBetween(dueAt, min(now, returnedAt))) * dailyRate`
    with `dailyRate = 0.50`. -/
def specFine (dueAt now returnedAt : Nat) : ℚ :=
  ((max 0 (daysBetween dueAt (min now returnedAt)) : Int) : ℚ) * (1 / 2)

/-- The state `updateOverdueBorrowings` is meant to produce: exactly the
    active borrowings past due are marked overdue with recomputed fine. -/
def overdueMark (s : LibState) (now : Nat) : LibState :=
  { s with borrowings := s.borrowings.map (fun c =>
      if c.status = .active ∧ c.due_date < now
      then overdueXform (calculateFine c.due_date now) c else c) }

/-- The invariant of C2: every book keeps
    `0 ≤ available_copies ≤ total_copies`. -/
def Inv (s : LibState) : Prop :=
  ∀ p ∈ s.books, 0 ≤ p.2.available_copies ∧ p.2.available_copies ≤ p.2.total_copies

/-- Reasoning artifact: the effect of one iteration of the
    `updateOverdueBorrowings` loop on a single row. -/
def elemStep (fo : FailOracle) (pr : Nat × ℚ) (c : Borrowing) : Borrowing :=
  if fo.overdueUpdateFail pr.1 then c
  else if c.id = pr.1 then overdueXform pr.2 c else c

/-- Reasoning artifact: the effect of the whole loop on a single row. -/
def applyPairs (fo : FailOracle) (P : List (Nat × ℚ)) (c : Borrowing) : Borrowing :=
  P.foldl (fun c pr => elemStep fo pr c) c

/-- The state `updateOverdueBorrowings` produces under oracle `fo`: nothing
    when the select fails; otherwise each newly-overdue borrowing whose
    individual update does not fail is marked. -/
def overdueRunResult (fo : FailOracle) (s : LibState) (now : Nat) : LibState :=
  if fo.overdueSelectFail then s
  else
    { s with borrowings := s.borrowings.map (fun c =>
        if c.status = .active ∧ c.due_date < now ∧ fo.overdueUpdateFail c.id = false
        then overdueXform (calculateFine c.due_date now) c else c) }

/-! ## General lemmas about the embedded statements -/

/-- A status change to `'pending_return'` matches no branch of the trigger. -/
lemma trigger_to_pending (s : LibState) (bid : Nat) (oldSt : BStatus) :
    statusChangeTrigger s bid oldSt .pending_return = some s := by
  simp [statusChangeTrigger]

/-- A status change to `'overdue'` matches no branch of the trigger. -/
lemma trigger_to_overdue (s : LibState) (bid : Nat) (oldSt : BStatus) :
    statusChangeTrigger s bid oldSt .overdue = some s := by
  simp [statusChangeTrigger]

/-- A monadic fold whose steps do nothing returns its start state. -/
lemma foldlM_id {α β : Type} (g : β → α → Option β) (l : List α) (s0 : β)
    (h : ∀ s' a, a ∈ l → g s' a = some s') : l.foldlM g s0 = some s0 := by
  induction l generalizing s0 with
  | nil => rfl
  | cons a t ih =>
      rw [List.foldlM_cons, h s0 a (List.mem_cons_self a t)]
      exact ih s0 fun s' b hb => h s' b (List.mem_cons_of_mem a hb)

/-- Updating a borrowing's status to `'pending_return'` succeeds and only
    rewrites the borrowings table. -/
lemma updateBorrowings_to_pending (s : LibState) (i : Nat) :
    updateBorrowings s i (fun c => { c with status := .pending_return }) =
      some { s with borrowings := s.borrowings.map (fun b =>
        if b.id = i then { b with status := .pending_return } else b) } := by
  unfold updateBorrowings
  exact foldlM_id _ _ _ fun s' b _ => trigger_to_pending s' b.book_id b.status

/-- Updating a borrowing to `'overdue'` (with a new fine) succeeds and only
    rewrites the borrowings table. -/
lemma updateBorrowings_to_overdue (s : LibState) (i : Nat) (v : ℚ) :
    updateBorrowings s i (fun c => overdueXform v c) =
      some { s with borrowings := s.borrowings.map (fun b =>
        if b.id = i then overdueXform v b else b) } := by
  unfold updateBorrowings
  exact foldlM_id _ _ _ fun s' b _ => trigger_to_overdue s' b.book_id b.status

/-- A row never touched by a loop pair (wrong id, or a failing update) is
    unchanged. -/
lemma elemStep_ne (fo : FailOracle) (pr : Nat × ℚ) (c : Borrowing)
    (h : pr.1 ≠ c.id) : elemStep fo pr c = c := by
  unfold elemStep
  by_cases hf : fo.overdueUpdateFail pr.1 = true
  · rw [if_pos hf]
  · rw [if_neg hf, if_neg fun hh => h hh.symm]

/-- A row none of whose pairs touch it survives the whole loop unchanged. -/
lemma applyPairs_id (fo : FailOracle) (P : List (Nat × ℚ)) (c : Borrowing)
    (h : ∀ pr ∈ P, elemStep fo pr c = c) : applyPairs fo P c = c := by
  induction P with
  | nil => rfl
  | cons pr P ih =>
      unfold applyPairs
      rw [List.foldl_cons, h pr (List.mem_cons_self pr P)]
      exact ih fun qr hq => h qr (List.mem_cons_of_mem pr hq)

/-- A row whose id occurs once among the pairs, with a working update, ends
    up transformed with that pair's fine. -/
lemma applyPairs_hit (fo : FailOracle) (P : List (Nat × ℚ)) (c : Borrowing)
    (v : ℚ) (hn : (P.map Prod.fst).Nodup) (hmem : (c.id, v) ∈ P)
    (hfail : fo.overdueUpdateFail c.id = false) :
    applyPairs fo P c = overdueXform v c := by
  induction P with
  | nil => cases hmem
  | cons pr P ih =>
      have hn1 : pr.1 ∉ P.map Prod.fst := by
        rw [List.map_cons] at hn
        exact (List.nodup_cons.mp hn).1
      have hn2 : (P.map Prod.fst).Nodup := by
        rw [List.map_cons] at hn
        exact (List.nodup_cons.mp hn).2
      unfold applyPairs
      rw [List.foldl_cons]
      by_cases hp : pr.1 = c.id
      · have hstep : elemStep fo pr c = overdueXform pr.2 c := by
          unfold elemStep
          rw [hp, hfail]
          rw [if_neg (by simp), if_pos rfl]
        have hv : pr.2 = v := by
          rcases List.mem_cons.mp hmem with h1 | h1
          · exact (congrArg Prod.snd h1).symm
          · exact absurd (hp ▸ List.mem_map_of_mem Prod.fst h1) hn1
        rw [hstep, hv]
        refine applyPairs_id fo P (overdueXform v c) fun qr hq => ?_
        refine elemStep_ne fo qr (overdueXform v c) fun he => ?_
        exact hn1 (hp ▸ he ▸ List.mem_map_of_mem Prod.fst hq)
      · rw [elemStep_ne fo pr c hp]
        have hmem' : (c.id, v) ∈ P := by
          rcases List.mem_cons.mp hmem with h1 | h1
          · exact absurd (congrArg Prod.fst h1).symm hp
          · exact h1
        exact ih hn2 hmem'

/-- One loop iteration of `updateOverdueBorrowings` acts on the state as a
    row-wise map. -/
lemma overdueStep_eq (fo : FailOracle) (pr : Nat × ℚ) (s : LibState) :
    (if fo.overdueUpdateFail pr.1 then s
     else
       match updateBorrowings s pr.1 (fun c => overdueXform pr.2 c) with
       | some s2 => s2
       | none => s) =
    { s with borrowings := s.borrowings.map (fun b => elemStep fo pr b) } := by
  by_cases hf : fo.overdueUpdateFail pr.1 = true
  · rw [if_pos hf]
    have hmap : s.borrowings.map (fun b => elemStep fo pr b) = s.borrowings := by
      have h2 : ∀ b ∈ s.borrowings, elemStep fo pr b = (fun b => b) b :=
        fun b _ => by unfold elemStep; rw [if_pos hf]
      rw [List.map_congr_left h2, List.map_id']
    rw [hmap]
  · rw [if_neg hf, updateBorrowings_to_overdue]
    show ({ s with borrowings := s.borrowings.map (fun b =>
      if b.id = pr.1 then overdueXform pr.2 b else b) } : LibState) = _
    have h2 : ∀ b ∈ s.borrowings,
        (if b.id = pr.1 then overdueXform pr.2 b else b) = elemStep fo pr b :=
      fun b _ => by unfold elemStep; rw [if_neg hf]
    rw [List.map_congr_left h2]

/-- The whole update loop acts on the state as a row-wise map. -/
lemma overdueLoop_eq (fo : FailOracle) (P : List (Nat × ℚ)) :
    ∀ s : LibState,
      P.foldl (fun acc pr =>
        if fo.overdueUpdateFail pr.1 then acc
        else
          match updateBorrowings acc pr.1 (fun c => overdueXform pr.2 c) with
          | some s2 => s2
          | none => acc) s =
      { s with borrowings := s.borrowings.map (applyPairs fo P) } := by
  induction P with
  | nil =>
      intro s
      show s = _
      have h2 : ∀ b ∈ s.borrowings, applyPairs fo [] b = (fun b => b) b :=
        fun b _ => rfl
      rw [List.map_congr_left h2, List.map_id']
  | cons pr P ih =>
      intro s
      rw [List.foldl_cons, overdueStep_eq fo pr s, ih]
      show ({ s with borrowings :=
        (s.borrowings.map (fun b => elemStep fo pr b)).map (applyPairs fo P) }
          : LibState) = _
      rw [List.map_map]
      rfl

/-- What one call of `updateOverdueBorrowings` computes, for any oracle whose
    select works, over a table with unique borrowing ids. -/
lemma updateOverdue_run (fo : FailOracle) (s : LibState) (now : Nat)
    (hn : (s.borrowings.map Borrowing.id).Nodup)
    (hsel : fo.overdueSelectFail = false) :
    updateOverdueBorrowings fo s now = .ok (overdueRunResult fo s now) := by
  unfold updateOverdueBorrowings overdueRunResult
  rw [if_neg (by simp [hsel]), if_neg (by simp [hsel]), overdueLoop_eq]
  refine congrArg Except.ok
    (congrArg (fun l => ({ s with borrowings := l } : LibState)) ?_)
  apply List.map_congr_left
  intro c hc
  by_cases h1 : c.status = .active ∧ c.due_date < now
  · by_cases h2 : fo.overdueUpdateFail c.id = false
    · rw [if_pos ⟨h1.1, h1.2, h2⟩]
      refine applyPairs_hit fo _ c _ ?_ ?_ h2
      · rw [List.map_map]
        exact hn.sublist ((List.filter_sublist _).map Borrowing.id)
      · exact List.mem_map_of_mem _
          (List.mem_filter.mpr ⟨hc, by simp [h1.1, h1.2]⟩)
    · have h2' : fo.overdueUpdateFail c.id = true := by
        cases hb : fo.overdueUpdateFail c.id
        · exact absurd hb h2
        · rfl
      rw [if_neg fun hh => h2 hh.2.2]
      refine applyPairs_id fo _ c fun pr hpr => ?_
      by_cases hp : pr.1 = c.id
      · unfold elemStep
        rw [hp, h2', if_pos rfl]
      · exact elemStep_ne fo pr c hp
  · rw [if_neg fun hh => h1 ⟨hh.1, hh.2.1⟩]
    refine applyPairs_id fo _ c fun pr hpr => ?_
    rcases List.mem_map.mp hpr with ⟨b, hbmem, rfl⟩
    by_cases hp : b.id = c.id
    · have hbin := (List.mem_filter.mp hbmem).1
      have hpb := (List.mem_filter.mp hbmem).2
      have hbc : b = c := List.inj_on_of_nodup_map hn hbin hc hp
      subst hbc
      simp only [Bool.and_eq_true, beq_iff_eq, decide_eq_true_eq] at hpb
      exact absurd hpb h1
    · exact elemStep_ne fo _ c hp

/-! ## Claims settled on concrete inputs -/

/-- C1, failing input: one `borrowBook` call (N = 1) against a book with
    `total_copies = 2`, `available_copies = 2` (k = 2) succeeds but lowers
    `available_copies` from 2 to 0 — the AFTER INSERT trigger and the
    store's own follow-up UPDATE each decrement once — so `copiesOnLoan`
    rises by 2 where the claim requires exactly `min(N,k) = 1`. -/
theorem borrowBook_single_call_double_decrement :
    okOf (borrowBook noFail stTwoFree 0 7 14 1000) = true ∧
    availOf stTwoFree 0 = some 2 ∧
    availOf (postOf stTwoFree (borrowBook noFail stTwoFree 0 7 14 1000)) 0 = some 0 ∧
    (postOf stTwoFree (borrowBook noFail stTwoFree 0 7 14 1000)).borrowings.length = 1 := by
  decide

/-- C3, failing input: staff calling `approveReturn` (and `returnBook`,
    the admin direct-return path the UI offers on active borrowings) on an
    Active loan, and `approveReturn` on an Overdue loan, all fail with
    InvalidState ("Only pending returns can be approved") instead of
    succeeding as the claim states. -/
theorem approveReturn_rejects_active_and_overdue :
    errOf (approveReturn noFail stActiveLoan 0 adminOne 500) = some .invalidState ∧
    errOf (returnBook noFail stActiveLoan 0 adminOne 500) = some .invalidState ∧
    errOf (approveReturn noFail stOverdueLoan 0 adminOne 500) = some .invalidState := by
  decide

/-- C4: when the book has no free copies (`available_copies ≤ 0`),
    `borrowBook` fails with ItemUnavailable before any write, so the set of
    borrowing records is unchanged. -/
theorem borrowBook_unavailable_creates_no_loan (s : LibState) (bk : Book)
    (bookId userId days now : Nat)
    (hbk : findBook s bookId = some bk) (h0 : bk.available_copies ≤ 0) :
    borrowBook noFail s bookId userId days now = .error .itemUnavailable ∧
    (postOf s (borrowBook noFail s bookId userId days now)).borrowings =
      s.borrowings := by
  have hav : is_book_available s bookId = false := by
    unfold is_book_available
    rw [hbk]
    simp only [decide_eq_false_iff_not, not_lt]
    exact le_trans h0 (Int.ofNat_nonneg _)
  constructor
  · unfold borrowBook
    rw [hav]
    rfl
  · unfold borrowBook
    rw [hav]
    rfl

/-- Witness for C4 at a concrete state. -/
theorem borrowBook_unavailable_creates_no_loan_witness :
    borrowBook noFail stNoFree 0 7 14 1000 = .error .itemUnavailable ∧
    (postOf stNoFree (borrowBook noFail stNoFree 0 7 14 1000)).borrowings =
      stNoFree.borrowings :=
  borrowBook_unavailable_creates_no_loan stNoFree
    { total_copies := 1, available_copies := 0 } 0 7 14 1000 (by decide) (by decide)

/-- C5, failing input: from the same pre-state, `borrowBook` with no storage
    failure and `borrowBook` whose post-insert copy-count UPDATE fails both
    report success, but leave different copy counts (0 vs 1) with the loan
    inserted in both — the loan insert and the copy-count decrement do not
    succeed or fail together, so the transition is not atomic as a unit. -/
theorem borrowBook_not_atomic_partial_application :
    okOf (borrowBook noFail stTwoFree 0 7 14 1000) = true ∧
    okOf (borrowBook { noFail with borrowUpdateFail := true } stTwoFree 0 7 14 1000)
      = true ∧
    (postOf stTwoFree
      (borrowBook { noFail with borrowUpdateFail := true } stTwoFree 0 7 14 1000)
      ).borrowings.length = 1 ∧
    availOf (postOf stTwoFree
      (borrowBook { noFail with borrowUpdateFail := true } stTwoFree 0 7 14 1000)) 0
      = some 1 ∧
    availOf (postOf stTwoFree (borrowBook noFail stTwoFree 0 7 14 1000)) 0
      = some 0 := by
  decide

/-- C6, counterexample: a caller other than the borrower (staff id 1,
    borrower id 7) on a loan that is not Active receives InvalidState
    ("Only active borrowings can be returned"), not NotOwner — the status
    check precedes the ownership check. -/
theorem requestReturn_nonowner_gets_invalidstate :
    adminOne.id ≠ rowActive.user_id ∧
    errOf (requestReturn noFail stPendingLoan 0 adminOne) = some .invalidState ∧
    OpError.invalidState ≠ OpError.notOwner := by
  decide

/-- C8, failing input: borrow then return of the same copy does not restore
    the copy count: from `available_copies = 2`, a successful `borrowBook`,
    `requestReturn`, `approveReturn` sequence ends at `available_copies = 1`
    (the borrow decremented twice, the return incremented once). -/
theorem borrow_return_roundtrip_loses_copy :
    availOf stTwoFree 0 = some 2 ∧
    okOf (borrowBook noFail stTwoFree 0 7 14 1000) = true ∧
    okOf (requestReturn noFail stAfterBorrow 0 memberSeven) = true ∧
    okOf (approveReturn noFail stAfterRequest 0 adminOne 2000) = true ∧
    availOf stAfterApprove 0 = some 1 := by
  decide

/-- C7: `calculateFine` equals the spec formula
    `max(0, daysBetween(dueAt, min(now, returnedAt))) * 0.50` whenever the
    return time is not before `now` (the store computes the final fine at
    the moment of return, and the provisional fine with no return yet, so
    `min(now, returnedAt) = now` in both uses); it is 0 whenever `now` is
    not after the due date; and on a loan due exactly 3 days ago,
    `updateOverdueBorrowings` sets status Overdue with fine 1.50. -/
theorem calculateFine_matches_spec_formula (due now ret : Nat) (hr : now ≤ ret) :
    calculateFine due now = specFine due now ret ∧
    (due < now ∨ calculateFine due now = 0) ∧
    okOf (updateOverdueBorrowings noFail stDueThreeDays nowThreeDays) = true ∧
    (postOf stDueThreeDays
        (updateOverdueBorrowings noFail stDueThreeDays nowThreeDays)).borrowings.map
      Borrowing.status = [.overdue] ∧
    (postOf stDueThreeDays
        (updateOverdueBorrowings noFail stDueThreeDays nowThreeDays)).borrowings.map
      Borrowing.fine_amount = [calculateFine 5 nowThreeDays] ∧
    calculateFine 5 nowThreeDays = 3/2 := by
  refine ⟨?_, ?_, by decide, by decide, rfl, ?_⟩
  · unfold calculateFine specFine daysBetween
    rw [min_eq_left hr]
    by_cases h : due < now
    · rw [if_pos h, if_pos (le_of_lt h), max_eq_right (Int.ofNat_nonneg _)]
      norm_cast
    · rw [if_neg h]
      have hnd : now ≤ due := le_of_not_lt h
      by_cases h2 : due ≤ now
      · have : due = now := le_antisymm h2 hnd
        subst this
        simp
      · rw [if_neg h2, max_eq_left (neg_nonpos.mpr (Int.ofNat_nonneg _))]
        simp
  · by_cases h : due < now
    · exact Or.inl h
    · exact Or.inr (by unfold calculateFine; rw [if_neg h])
  · norm_num [calculateFine, nowThreeDays, dayMs]

/-- Witness for C7 at `due` three days before `now`. -/
theorem calculateFine_matches_spec_formula_witness :
    calculateFine 5 nowThreeDays = specFine 5 nowThreeDays nowThreeDays ∧
    (5 < nowThreeDays ∨ calculateFine 5 nowThreeDays = 0) ∧
    okOf (updateOverdueBorrowings noFail stDueThreeDays nowThreeDays) = true ∧
    (postOf stDueThreeDays
        (updateOverdueBorrowings noFail stDueThreeDays nowThreeDays)).borrowings.map
      Borrowing.status = [.overdue] ∧
    (postOf stDueThreeDays
        (updateOverdueBorrowings noFail stDueThreeDays nowThreeDays)).borrowings.map
      Borrowing.fine_amount = [calculateFine 5 nowThreeDays] ∧
    calculateFine 5 nowThreeDays = 3/2 :=
  calculateFine_matches_spec_formula 5 nowThreeDays nowThreeDays (le_refl _)

/-- C6 (amended): `requestReturn` checks existence, then status, then
    ownership, in that order: any loan whose status is not Active yields
    InvalidState (even for a non-borrower caller); NotOwner arises only for
    a non-borrower caller on an Active loan; when the caller is the
    borrower and the loan is Active it succeeds as a pure status update to
    PendingReturn; and in every case the books table (the copy counts) is
    untouched. -/
theorem requestReturn_characterization (s : LibState) (b : Borrowing) (i : Nat)
    (caller : Profile)
    (hfind : s.borrowings.find? (fun c => c.id == i) = some b) :
    (b.status ≠ .active → requestReturn noFail s i caller = .error .invalidState) ∧
    (b.status = .active → b.user_id ≠ caller.id →
      requestReturn noFail s i caller = .error .notOwner) ∧
    (b.status = .active → b.user_id = caller.id →
      requestReturn noFail s i caller = .ok { s with borrowings := s.borrowings.map (fun c =>
        if c.id = i then { c with status := .pending_return } else c) }) ∧
    (postOf s (requestReturn noFail s i caller)).books = s.books := by
  have hbase : requestReturn noFail s i caller =
      (if b.status ≠ .active then .error .invalidState
       else if b.user_id ≠ caller.id then .error .notOwner
       else
         match updateBorrowings s i (fun c => { c with status := .pending_return }) with
         | none => .error .storage
         | some s1 => .ok s1) := by
    unfold requestReturn
    rw [hfind]
    rfl
  refine ⟨?_, ?_, ?_, ?_⟩
  · intro h
    rw [hbase, if_pos h]
  · intro h1 h2
    rw [hbase, if_neg (by simp [h1]), if_pos h2]
  · intro h1 h2
    rw [hbase, if_neg (by simp [h1]), if_neg (by simp [h2]),
        updateBorrowings_to_pending]
  · by_cases h1 : b.status = .active
    · by_cases h2 : b.user_id = caller.id
      · rw [hbase, if_neg (by simp [h1]), if_neg (by simp [h2]),
            updateBorrowings_to_pending]
        rfl
      · rw [hbase, if_neg (by simp [h1]), if_pos h2]
        rfl
    · rw [hbase, if_pos h1]
      rfl

/-- Witness for C6 (amended): the borrower requesting return of their own
    active loan succeeds with the pure status update. -/
theorem requestReturn_characterization_witness :
    requestReturn noFail stActiveLoan 0 memberSeven =
      .ok { stActiveLoan with borrowings := stActiveLoan.borrowings.map (fun c =>
        if c.id = 0 then { c with status := .pending_return } else c) } :=
  (requestReturn_characterization stActiveLoan rowActive 0 memberSeven
    (by decide)).2.2.1 (by decide) (by decide)

/-- C9: with no storage failures, over a table with unique borrowing ids,
    `updateOverdueBorrowings` transitions exactly the borrowings with status
    Active and `due_date` before now to Overdue (with recomputed fine),
    touches no copy counts, and is idempotent: an immediate second run
    returns the same state. -/
theorem updateOverdue_exact_and_idempotent (s : LibState) (now : Nat)
    (hn : (s.borrowings.map Borrowing.id).Nodup) :
    updateOverdueBorrowings noFail s now = .ok (overdueMark s now) ∧
    (overdueMark s now).books = s.books ∧
    updateOverdueBorrowings noFail (overdueMark s now) now =
      .ok (overdueMark s now) := by
  have hres : ∀ t : LibState, overdueRunResult noFail t now = overdueMark t now := by
    intro t
    unfold overdueRunResult overdueMark
    rw [if_neg (by simp [noFail])]
    refine congrArg (fun l => ({ t with borrowings := l } : LibState)) ?_
    refine List.map_congr_left fun c _ => ?_
    exact if_congr (by simp [noFail]) rfl rfl
  have hmark : (overdueMark s now).borrowings.map Borrowing.id =
      s.borrowings.map Borrowing.id := by
    unfold overdueMark
    rw [List.map_map]
    refine List.map_congr_left fun c _ => ?_
    simp only [Function.comp_apply]
    by_cases h : c.status = .active ∧ c.due_date < now
    · rw [if_pos h]
      rfl
    · rw [if_neg h]
  have hn' : ((overdueMark s now).borrowings.map Borrowing.id).Nodup := by
    rw [hmark]; exact hn
  have hfix : overdueMark (overdueMark s now) now = overdueMark s now := by
    have h2 : ∀ c' ∈ (overdueMark s now).borrowings,
        (if c'.status = .active ∧ c'.due_date < now
         then overdueXform (calculateFine c'.due_date now) c' else c') =
          (fun b => b) c' := by
      intro c' hc'
      unfold overdueMark at hc'
      rcases List.mem_map.mp hc' with ⟨c, _, hceq⟩
      by_cases h : c.status = .active ∧ c.due_date < now
      · rw [if_pos h] at hceq
        rw [if_neg]
        rw [← hceq]
        unfold overdueXform
        rintro ⟨ha, _⟩
        cases ha
      · rw [if_neg h] at hceq
        rw [if_neg]
        rw [← hceq]
        exact h
    show ({ overdueMark s now with
      borrowings := (overdueMark s now).borrowings.map _ } : LibState) = _
    rw [List.map_congr_left h2, List.map_id']
  refine ⟨?_, rfl, ?_⟩
  · rw [updateOverdue_run noFail s now hn rfl, hres]
  · rw [updateOverdue_run noFail (overdueMark s now) now hn' rfl,
        hres (overdueMark s now), hfix]

/-- Witness for C9 on the three-days-overdue loan. -/
theorem updateOverdue_exact_and_idempotent_witness :
    updateOverdueBorrowings noFail stDueThreeDays nowThreeDays =
      .ok (overdueMark stDueThreeDays nowThreeDays) ∧
    (overdueMark stDueThreeDays nowThreeDays).books = stDueThreeDays.books ∧
    updateOverdueBorrowings noFail (overdueMark stDueThreeDays nowThreeDays)
        nowThreeDays = .ok (overdueMark stDueThreeDays nowThreeDays) :=
  updateOverdue_exact_and_idempotent stDueThreeDays nowThreeDays (by decide)

/-- C10: for every pattern of storage failures, `updateOverdueBorrowings`
    returns normally (the select error is caught and logged; per-row update
    results are never inspected), and the surviving state applies exactly
    the per-row updates that succeeded — rows updated before a failure stay
    updated, and the caller receives no failure signal. -/
theorem updateOverdue_never_propagates (fo : FailOracle) (s : LibState)
    (now : Nat) (hn : (s.borrowings.map Borrowing.id).Nodup) :
    updateOverdueBorrowings fo s now = .ok (overdueRunResult fo s now) := by
  by_cases hsel : fo.overdueSelectFail = true
  · unfold updateOverdueBorrowings overdueRunResult
    rw [if_pos hsel, if_pos hsel]
  · have hf : fo.overdueSelectFail = false := by
      cases h : fo.overdueSelectFail
      · rfl
      · exact absurd h hsel
    exact updateOverdue_run fo s now hn hf

/-- Witness for C10 under an oracle with a failing per-row update. -/
theorem updateOverdue_never_propagates_witness :
    updateOverdueBorrowings failFive stDueThreeDays nowThreeDays =
      .ok (overdueRunResult failFive stDueThreeDays nowThreeDays) :=
  updateOverdue_never_propagates failFive stDueThreeDays nowThreeDays (by decide)

/-! ## Invariant preservation (C2) -/

/-- With unique book ids, any table entry sharing the looked-up id is the
    looked-up book. -/
lemma findBook_mem_unique {s : LibState} {bid : Nat} {bk : Book}
    (hkeys : (s.books.map Prod.fst).Nodup)
    (hfb : findBook s bid = some bk) {q : Nat × Book} (hq : q ∈ s.books)
    (hq1 : q.1 = bid) : q.2 = bk := by
  unfold findBook at hfb
  cases hfind : s.books.find? (fun p => p.1 == bid) with
  | none => rw [hfind] at hfb; exact Option.noConfusion hfb
  | some p0 =>
      rw [hfind] at hfb
      have hfb1 : p0.2 = bk := by simpa using hfb
      have hp0 : p0 ∈ s.books := List.mem_of_find?_eq_some hfind
      have hp0k : p0.1 = bid := by simpa using List.find?_some hfind
      have hpq : p0 = q :=
        List.inj_on_of_nodup_map hkeys hp0 hq (by rw [hp0k, hq1])
      rw [← hpq]
      exact hfb1

/-- The guarded `UPDATE books` statement preserves the invariant and the
    uniqueness of book ids. -/
lemma booksOk_updateBookAvailable {s s' : LibState} {bid : Nat} {v : Int}
    (h : Inv s ∧ (s.books.map Prod.fst).Nodup)
    (he : updateBookAvailable s bid v = some s') :
    Inv s' ∧ (s'.books.map Prod.fst).Nodup := by
  unfold updateBookAvailable at he
  split at he
  · injection he with h1
    subst h1
    exact h
  · rename_i bk hfb
    split at he
    case isFalse => exact Option.noConfusion he
    case isTrue hg =>
      injection he with h1
      subst h1
      have hkeq : (s.books.map (fun p =>
          if p.1 = bid then (p.1, { p.2 with available_copies := v }) else p)).map
            Prod.fst = s.books.map Prod.fst := by
        rw [List.map_map]
        refine List.map_congr_left fun p _ => ?_
        simp only [Function.comp_apply]
        by_cases hp1 : p.1 = bid
        · rw [if_pos hp1]
        · rw [if_neg hp1]
      constructor
      · intro p hp
        rcases List.mem_map.mp hp with ⟨q, hq, rfl⟩
        by_cases hq1 : q.1 = bid
        · rw [if_pos hq1]
          have hqbk : q.2 = bk := findBook_mem_unique h.2 hfb hq hq1
          refine ⟨hg.1, ?_⟩
          show v ≤ q.2.total_copies
          rw [hqbk]
          exact hg.2
        · rw [if_neg hq1]
          exact h.1 q hq
      · show ((s.books.map _).map Prod.fst).Nodup
        rw [hkeq]
        exact h.2

/-- The read-and-bump `UPDATE books` statement preserves the invariant. -/
lemma booksOk_bump {s s' : LibState} {bid : Nat} {d : Int}
    (h : Inv s ∧ (s.books.map Prod.fst).Nodup)
    (he : bumpBookAvailable s bid d = some s') :
    Inv s' ∧ (s'.books.map Prod.fst).Nodup := by
  unfold bumpBookAvailable at he
  cases hfb : findBook s bid with
  | none =>
      rw [hfb] at he
      injection he with h1
      subst h1
      exact h
  | some bk =>
      rw [hfb] at he
      exact booksOk_updateBookAvailable h he

/-- Every branch of the status-change trigger preserves the invariant. -/
lemma booksOk_trigger {s s' : LibState} {bid : Nat} {oldSt newSt : BStatus}
    (h : Inv s ∧ (s.books.map Prod.fst).Nodup)
    (he : statusChangeTrigger s bid oldSt newSt = some s') :
    Inv s' ∧ (s'.books.map Prod.fst).Nodup := by
  unfold statusChangeTrigger at he
  split at he
  · exact booksOk_bump h he
  · split at he
    · exact booksOk_bump h he
    · split at he
      · exact booksOk_bump h he
      · injection he with h1
        subst h1
        exact h

/-- Stepwise preservation along a monadic fold. -/
lemma foldlM_pres {α β : Type} (g : β → α → Option β) (Q : β → Prop)
    (l : List α)
    (hg : ∀ acc acc' a, a ∈ l → Q acc → g acc a = some acc' → Q acc') :
    ∀ s0 s', Q s0 → l.foldlM g s0 = some s' → Q s' := by
  induction l with
  | nil =>
      intro s0 s' h he
      rw [List.foldlM_nil] at he
      injection he with h1
      subst h1
      exact h
  | cons a t ih =>
      intro s0 s' h he
      rw [List.foldlM_cons] at he
      cases hga : g s0 a with
      | none => rw [hga] at he; exact Option.noConfusion he
      | some mid =>
          rw [hga] at he
          have he' : t.foldlM g mid = some s' := he
          exact ih (fun acc acc' b hb => hg acc acc' b (List.mem_cons_of_mem a hb))
            mid s' (hg s0 mid a (List.mem_cons_self a t) h hga) he'

/-- A borrowings `UPDATE` (row rewrite plus status triggers) preserves the
    invariant. -/
lemma booksOk_updateBorrowings {s s' : LibState} {i : Nat}
    {f : Borrowing → Borrowing}
    (h : Inv s ∧ (s.books.map Prod.fst).Nodup)
    (he : updateBorrowings s i f = some s') :
    Inv s' ∧ (s'.books.map Prod.fst).Nodup := by
  unfold updateBorrowings at he
  refine foldlM_pres _ (fun t => Inv t ∧ (t.books.map Prod.fst).Nodup) _
    (fun acc acc' b _ hq hstep => booksOk_trigger hq hstep) _ s' ?_ he
  exact h

/-- A borrowings `INSERT` (row append plus insert trigger) preserves the
    invariant. -/
lemma booksOk_insertBorrowing {s s' : LibState} {row : Borrowing}
    (h : Inv s ∧ (s.books.map Prod.fst).Nodup)
    (he : insertBorrowing s row = some s') :
    Inv s' ∧ (s'.books.map Prod.fst).Nodup := by
  unfold insertBorrowing at he
  split at he
  · exact Option.noConfusion he
  · split at he
    case isTrue =>
      exact @booksOk_bump
        { s with borrowings := s.borrowings ++ [row], nextId := s.nextId + 1 }
        s' row.book_id (-1) h he
    case isFalse =>
      injection he with h1
      subst h1
      exact h

/-- Stepwise preservation along a plain fold. -/
lemma foldl_pres {α β : Type} (g : β → α → β) (Q : β → Prop) (l : List α)
    (hg : ∀ acc a, a ∈ l → Q acc → Q (g acc a)) :
    ∀ s0, Q s0 → Q (l.foldl g s0) := by
  induction l with
  | nil => intro s0 h; exact h
  | cons a t ih =>
      intro s0 h
      rw [List.foldl_cons]
      exact ih (fun acc b hb hq => hg acc b (List.mem_cons_of_mem a hb) hq) _
        (hg s0 a (List.mem_cons_self a t) h)

/-- `borrowBook` preserves the invariant on every success path. -/
lemma booksOk_borrowBook {fo : FailOracle} {s s' : LibState}
    {bookId userId days now : Nat}
    (h : Inv s ∧ (s.books.map Prod.fst).Nodup)
    (he : borrowBook fo s bookId userId days now = .ok s') :
    Inv s' ∧ (s'.books.map Prod.fst).Nodup := by
  unfold borrowBook at he
  split at he
  · exact Except.noConfusion he
  · split at he
    · split at he
      · exact Except.noConfusion he
      · split at he
        · exact Except.noConfusion he
        · rename_i s1 hins
          have h1 := booksOk_insertBorrowing h hins
          split at he
          · injection he with h2
            subst h2
            exact h1
          · split at he
            · injection he with h2
              subst h2
              exact h1
            · rename_i bk hbk
              split at he
              · split at he
                · injection he with h2
                  subst h2
                  exact h1
                · split at he
                  · injection he with h2
                    subst h2
                    exact h1
                  · rename_i s2 hupd
                    injection he with h2
                    subst h2
                    exact booksOk_updateBookAvailable h1 hupd
              · injection he with h2
                subst h2
                exact h1
    · exact Except.noConfusion he

/-- `requestReturn` preserves the invariant on every success path. -/
lemma booksOk_requestReturn {fo : FailOracle} {s s' : LibState} {i : Nat}
    {caller : Profile}
    (h : Inv s ∧ (s.books.map Prod.fst).Nodup)
    (he : requestReturn fo s i caller = .ok s') :
    Inv s' ∧ (s'.books.map Prod.fst).Nodup := by
  unfold requestReturn at he
  split at he
  · exact Except.noConfusion he
  · split at he
    · exact Except.noConfusion he
    · split at he
      · exact Except.noConfusion he
      · split at he
        · exact Except.noConfusion he
        · split at he
          · exact Except.noConfusion he
          · split at he
            · exact Except.noConfusion he
            · rename_i s1 hupd
              injection he with h2
              subst h2
              exact booksOk_updateBorrowings h hupd

/-- `approveReturn` preserves the invariant on every success path. -/
lemma booksOk_approveReturn {fo : FailOracle} {s s' : LibState} {i now : Nat}
    {caller : Profile}
    (h : Inv s ∧ (s.books.map Prod.fst).Nodup)
    (he : approveReturn fo s i caller now = .ok s') :
    Inv s' ∧ (s'.books.map Prod.fst).Nodup := by
  unfold approveReturn at he
  split at he
  · split at he
    · exact Except.noConfusion he
    · split at he
      · exact Except.noConfusion he
      · split at he
        · exact Except.noConfusion he
        · split at he
          · exact Except.noConfusion he
          · split at he
            · exact Except.noConfusion he
            · split at he
              · exact Except.noConfusion he
              · rename_i s1 hupd
                have h1 := booksOk_updateBorrowings h hupd
                split at he
                · injection he with h2
                  subst h2
                  exact h1
                · split at he
                  · injection he with h2
                    subst h2
                    exact h1
                  · rename_i s2 hu2
                    injection he with h2
                    subst h2
                    exact booksOk_updateBookAvailable h1 hu2
  · exact Except.noConfusion he

/-- `updateOverdueBorrowings` preserves the invariant for every oracle. -/
lemma booksOk_updateOverdue {fo : FailOracle} {s s' : LibState} {now : Nat}
    (h : Inv s ∧ (s.books.map Prod.fst).Nodup)
    (he : updateOverdueBorrowings fo s now = .ok s') :
    Inv s' ∧ (s'.books.map Prod.fst).Nodup := by
  unfold updateOverdueBorrowings at he
  split at he
  · injection he with h1
    subst h1
    exact h
  · injection he with h1
    subst h1
    refine foldl_pres _ (fun t => Inv t ∧ (t.books.map Prod.fst).Nodup) _
      ?_ s h
    intro acc pr _ hq
    by_cases hf : fo.overdueUpdateFail pr.1 = true
    · rw [if_pos hf]
      exact hq
    · rw [if_neg hf]
      cases hu : updateBorrowings acc pr.1 (fun c => overdueXform pr.2 c) with
      | none => exact hq
      | some s2 => exact booksOk_updateBorrowings hq hu

/-- C2: from any state satisfying the invariant (with unique book ids, as
    the schema's primary key guarantees), each copy-count-mutating
    operation — `borrowBook`'s decrement, `approveReturn`'s increment, the
    status-change triggers inside `requestReturn` and
    `updateOverdueBorrowings` — leaves every book with
    `0 ≤ available_copies ≤ total_copies`, under any storage-failure
    pattern (a failed statement leaves the state unchanged). -/
theorem copies_invariant_preserved (fo : FailOracle) (s : LibState)
    (hInv : Inv s) (hkeys : (s.books.map Prod.fst).Nodup)
    (bookId userId days now i : Nat) (caller : Profile) :
    Inv (postOf s (borrowBook fo s bookId userId days now)) ∧
    Inv (postOf s (requestReturn fo s i caller)) ∧
    Inv (postOf s (approveReturn fo s i caller now)) ∧
    Inv (postOf s (updateOverdueBorrowings fo s now)) := by
  refine ⟨?_, ?_, ?_, ?_⟩
  · cases hr : borrowBook fo s bookId userId days now with
    | error e => exact hInv
    | ok s' => exact (booksOk_borrowBook ⟨hInv, hkeys⟩ hr).1
  · cases hr : requestReturn fo s i caller with
    | error e => exact hInv
    | ok s' => exact (booksOk_requestReturn ⟨hInv, hkeys⟩ hr).1
  · cases hr : approveReturn fo s i caller now with
    | error e => exact hInv
    | ok s' => exact (booksOk_approveReturn ⟨hInv, hkeys⟩ hr).1
  · cases hr : updateOverdueBorrowings fo s now with
    | error e => exact hInv
    | ok s' => exact (booksOk_updateOverdue ⟨hInv, hkeys⟩ hr).1

/-- Witness for C2 at a concrete state and concrete calls. -/
theorem copies_invariant_preserved_witness :
    Inv (postOf stActiveLoan (borrowBook noFail stActiveLoan 0 7 14 1000)) ∧
    Inv (postOf stActiveLoan (requestReturn noFail stActiveLoan 0 memberSeven)) ∧
    Inv (postOf stActiveLoan (approveReturn noFail stActiveLoan 0 memberSeven 1000)) ∧
    Inv (postOf stActiveLoan (updateOverdueBorrowings noFail stActiveLoan 1000)) :=
  copies_invariant_preserved noFail stActiveLoan (by unfold Inv; decide)
    (by decide) 0 7 14 1000 0 memberSeven

end PerpusSMA
